import Mathlib

/-
Shallow embedding of the texture-replacement cache implemented in
GPU/Common/TextureReplacer.cpp (PPSSPP), together with theorems about its
lookup order, cache idempotence, negative-result memoization, eviction
policy and save de-duplication.

Machine integers (u64 cache keys, u32 hashes) are embedded as Nat, with
masking / truncation made explicit exactly where the source performs it.
Doubles used by the eviction policy are embedded as rationals, since every
operation involved (+, -, *, /, min, comparison) is exact on the values
concerned.  Pointers to ReplacedTexture objects are embedded as Nat
identities allocated by a counter, so that pointer equality in the source
becomes equality of identifiers.
-/

/-- ReplacementCacheKey: 64-bit cache key (address / CLUT context) plus
32-bit content hash; the exact lookup key of both cache tiers. -/
structure ReplacementCacheKey where
  cachekey : Nat
  hash : Nat
deriving DecidableEq

/-- LookupWildcard (TextureReplacer.cpp lines 767-810): probe the map with
progressively relaxed keys, stopping at the first hit.  The reference
parameter `key` of the C++ version always arrives as (cachekey, hash) at
both call sites, so the first probe is the exact key. -/
def LookupWildcard {α : Type} (m : ReplacementCacheKey → Option α)
    (cachekey : Nat) (hash : Nat) (ignoreAddress : Bool) : Option α :=
  match m ⟨cachekey, hash⟩ with
  | some v => some v
  | none =>
    -- Only clut hash (cachekey & 0xFFFFFFFF, hash = 0)
    match m ⟨cachekey &&& 0xFFFFFFFF, 0⟩ with
    | some v => some v
    | none =>
      -- No data hash (cachekey, 0), skipped when ignoreAddress is set
      match (if ignoreAddress then none else m ⟨cachekey, 0⟩) with
      | some v => some v
      | none =>
        -- No address (cachekey & 0xFFFFFFFF, hash)
        match m ⟨cachekey &&& 0xFFFFFFFF, hash⟩ with
        | some v => some v
        | none =>
          -- Address but not clut hash (cachekey & ~0xFFFFFFFF, hash),
          -- skipped when ignoreAddress is set
          match (if ignoreAddress then none
                 else m ⟨cachekey &&& 0xFFFFFFFF00000000, hash⟩) with
          | some v => some v
          | none =>
            -- Anything with this data hash (0, hash)
            m ⟨0, hash⟩

/-- The probe order stated by the specification for the wildcard resolver,
written directly as a key list (each optional step dropped when
ignoreAddress is set). -/
def specProbeOrder (cachekey : Nat) (hash : Nat) (ignoreAddress : Bool) :
    List ReplacementCacheKey :=
  [⟨cachekey, hash⟩, ⟨cachekey &&& 0xFFFFFFFF, 0⟩]
    ++ (if ignoreAddress then [] else [⟨cachekey, 0⟩])
    ++ [⟨cachekey &&& 0xFFFFFFFF, hash⟩]
    ++ (if ignoreAddress then [] else [⟨cachekey &&& 0xFFFFFFFF00000000, hash⟩])
    ++ [⟨0, hash⟩]

/-- C3: LookupWildcard probes keys exactly in the order stated by the spec —
exact, (cachekey & 0xFFFFFFFF, 0), (cachekey, 0) unless ignoreAddress,
(cachekey & 0xFFFFFFFF, hash), (cachekey & ~0xFFFFFFFF, hash) unless
ignoreAddress, (0, hash) — and returns the first hit, reporting no match
when every probe misses. -/
theorem LookupWildcard_probe_order {α : Type} (m : ReplacementCacheKey → Option α)
    (cachekey : Nat) (hash : Nat) (ignoreAddress : Bool) :
    LookupWildcard m cachekey hash ignoreAddress =
      (specProbeOrder cachekey hash ignoreAddress).findSome? m := by
  cases ignoreAddress <;>
    simp only [LookupWildcard, specProbeOrder, if_true, if_false,
      List.cons_append, List.nil_append, List.findSome?_cons, List.findSome?_nil,
      Bool.false_eq_true] <;>
  · cases m ⟨cachekey, hash⟩ <;>
      cases m ⟨cachekey &&& 0xFFFFFFFF, 0⟩ <;>
      cases m ⟨cachekey, 0⟩ <;>
      cases m ⟨cachekey &&& 0xFFFFFFFF, hash⟩ <;>
      cases m ⟨cachekey &&& 0xFFFFFFFF00000000, hash⟩ <;>
      cases m ⟨0, hash⟩ <;>
      rfl

/-- LookupHashFile (lines 832-844): resolve the alias table through the
wildcard resolver.  foundAlias reports any hit; ignored reports an
explicitly empty alias (the "deliberately suppressed" marker). -/
structure HashFileLookupResult where
  hashfiles : String
  foundAlias : Bool
  ignored : Bool
deriving DecidableEq

def LookupHashFile (aliases : ReplacementCacheKey → Option String)
    (ignoreAddress : Bool) (cachekey hash : Nat) : HashFileLookupResult :=
  match LookupWildcard aliases cachekey hash ignoreAddress with
  | some a => { hashfiles := a, foundAlias := true, ignored := a == "" }
  | none => { hashfiles := "", foundAlias := false, ignored := false }

/-- Zero-padded lowercase hexadecimal rendering, as produced by the
snprintf formats %016llx / %08x used by HashName. -/
def toHexPad (width : Nat) (n : Nat) : String :=
  let ds := Nat.toDigits 16 n
  String.mk (List.replicate (width - ds.length) '0' ++ ds)

/-- HashName (lines 846-855): "%016llx%08x" plus "_level" when level > 0.
The u64 / u32 conversions of the C formats appear as explicit truncation. -/
def HashName (cachekey hash : Nat) (level : Nat) : String :=
  if 0 < level then
    toHexPad 16 (cachekey % 2 ^ 64) ++ toHexPad 8 (hash % 2 ^ 32) ++ "_" ++ toString level
  else
    toHexPad 16 (cachekey % 2 ^ 64) ++ toHexPad 8 (hash % 2 ^ 32)

/-- LookupHashRange (lines 857-870): the hash-range table is keyed on
(addr << 32) | (w << 16) | h and yields an override (width, height). -/
def LookupHashRange (hashranges : Nat → Option (Nat × Nat))
    (addr w h : Nat) : Option (Nat × Nat) :=
  hashranges ((addr <<< 32) ||| (w <<< 16) ||| h)

/-- Modelled from the spec: one unit of lazily decoded payload held by a
ReplacedTexture handle.  The class itself is declared outside this source
file; per the spec a handle owns decoded pixel buffers with a last-used
timestamp, purged by the eviction sweep. -/
structure ReplacementLevelData where
  lastUsed : ℚ
  dataSize : Nat
deriving DecidableEq

/-- Modelled from the spec: ReplacedTexture::PurgeIfNotUsedSinceTime is not
part of this source file; per the spec it frees "any internal data not
accessed since now − age", keeping payload used at or after the threshold. -/
def PurgeIfNotUsedSinceTime (threshold : ℚ) (d : List ReplacementLevelData) :
    List ReplacementLevelData :=
  d.filter (fun l => threshold ≤ l.lastUsed)

/-- Modelled from the spec: ReplacedTexture::GetTotalDataSize reports the
resident payload size of a handle. -/
def GetTotalDataSize (d : List ReplacementLevelData) : Nat :=
  (d.map (fun l => l.dataSize)).sum

/-- ReplacedTextureRef: the fast-tier cache value — the canonical string it
was stored under plus the handle (none encodes the negative marker written
as ReplacedTextureRef{} for ignored textures). -/
structure ReplacedTextureRef where
  hashfiles : String
  texture : Option Nat
deriving DecidableEq

/-- Modelled from the spec: SavedTextureCacheData (declared in the header)
records, per mip level, last-saved dimensions and a saved flag, plus the
time of the last save. -/
structure SavedTextureCacheData where
  levelW : Nat → Nat
  levelH : Nat → Nat
  levelSaved : Nat → Bool
  lastTimeSaved : ℚ

/-- The mutable state of one TextureReplacer: configuration flags, the
author-supplied tables, the two cache tiers, the handle store (ids plus
payload) and the save de-duplication records. -/
structure TextureReplacerState where
  enabled : Bool
  replaceTextures : Bool
  saveNewTextures : Bool
  allowVideo : Bool
  ignoreAddress : Bool
  ignoreMipmap : Bool
  aliases : ReplacementCacheKey → Option String
  hashranges : Nat → Option (Nat × Nat)
  cache : ReplacementCacheKey → Option ReplacedTextureRef
  levelCache : List (String × Nat)
  handleData : Nat → List ReplacementLevelData
  nextId : Nat
  savedCache : ReplacementCacheKey → Option SavedTextureCacheData
  lastTextureCacheSizeGB : ℚ

/-- unordered_map::emplace on the fast tier: inserts only when the key is
absent, keeping any existing entry. -/
def emplace (m : ReplacementCacheKey → Option ReplacedTextureRef)
    (k : ReplacementCacheKey) (v : ReplacedTextureRef) :
    ReplacementCacheKey → Option ReplacedTextureRef :=
  fun k2 => if k2 = k then some ((m k).getD v) else m k2

/-- Association lookup in the level cache (unordered_map keyed on the
hash-files string). -/
def alook : List (String × Nat) → String → Option Nat
  | [], _ => none
  | p :: rest, k => if p.1 = k then some p.2 else alook rest k

/-- The address-context masking applied when the ignoreAddress policy is
set (lines 487-489 and 652-654). -/
def maskedCacheKey (ignoreAddress : Bool) (cachekey : Nat) : Nat :=
  if ignoreAddress then cachekey &&& 0xFFFFFFFF else cachekey

/-- Result of FindReplacement: the handle (none when no replacement is
used), whether alias resolution (LookupHashFile) ran during the call, and
the state after the call. -/
structure FindResult where
  texture : Option Nat
  resolverCalled : Bool
  state : TextureReplacerState

/-- The slow path of FindReplacement (lines 478-547), taken on a fast-tier
miss.  Only the cache-visible effects are modelled; the desc fields that
merely parameterize eventual pixel decoding (dimensions from
LookupHashRange, forced filtering, base path, format support) do not feed
back into any table.  Note that the level cache is keyed on the local
hashfiles variable exactly as in the source: it keeps the value returned
by LookupHashFile, which is the empty string whenever no alias was found
(desc.hashfiles is the one set to the generated filename in that case). -/
def FindReplacementMiss (s : TextureReplacerState) (cachekey hash : Nat) : FindResult :=
  let ck := maskedCacheKey s.ignoreAddress cachekey
  let r := LookupHashFile s.aliases s.ignoreAddress ck hash
  if r.ignored then
    { texture := none, resolverCalled := true,
      state := { s with cache := emplace s.cache ⟨cachekey, hash⟩
                          { hashfiles := "", texture := none } } }
  else
    match alook s.levelCache r.hashfiles with
    | some t =>
      { texture := some t, resolverCalled := true,
        state := { s with cache := emplace s.cache ⟨cachekey, hash⟩
                            { hashfiles := r.hashfiles, texture := some t } } }
    | none =>
      { texture := some s.nextId, resolverCalled := true,
        state := { s with
          cache := emplace s.cache ⟨cachekey, hash⟩
                     { hashfiles := r.hashfiles, texture := some s.nextId },
          levelCache := (r.hashfiles, s.nextId) :: s.levelCache,
          handleData := fun i => if i = s.nextId then [] else s.handleData i,
          nextId := s.nextId + 1 } }

/-- FindReplacement (lines 466-548).  The width / height arguments only
feed desc.newW / desc.newH through LookupHashRange and are not otherwise
observable, so they are accepted and ignored here. -/
def FindReplacement (s : TextureReplacerState) (cachekey hash : Nat)
    (w h : Nat) : FindResult :=
  if s.enabled && s.replaceTextures then
    match s.cache ⟨cachekey, hash⟩ with
    | some ref => { texture := ref.texture, resolverCalled := false, state := s }
    | none => FindReplacementMiss s cachekey hash
  else { texture := none, resolverCalled := false, state := s }

/-- The canonical identity string desc.hashfiles computed by a fast-tier
miss (lines 493-521): the alias string when an alias matched, the generated
top-level filename otherwise, and nothing for an ignored texture. -/
def canonicalHashfiles (s : TextureReplacerState) (cachekey hash : Nat) : Option String :=
  let ck := maskedCacheKey s.ignoreAddress cachekey
  let r := LookupHashFile s.aliases s.ignoreAddress ck hash
  if r.ignored then none
  else if r.foundAlias then some r.hashfiles
  else some (HashName ck hash 0 ++ ".png")

/-- A sequence of further FindReplacement calls, threading the state. -/
def runFinds (s : TextureReplacerState) :
    List (Nat × Nat × Nat × Nat) → TextureReplacerState
  | [] => s
  | a :: rest => runFinds (FindReplacement s a.1 a.2.1 a.2.2.1 a.2.2.2).state rest

theorem emplace_keep {m : ReplacementCacheKey → Option ReplacedTextureRef}
    {k k2 : ReplacementCacheKey} {v r : ReplacedTextureRef}
    (h : m k2 = some r) : emplace m k v k2 = some r := by
  unfold emplace
  by_cases hk : k2 = k
  · subst hk
    rw [if_pos rfl, h]
    rfl
  · rw [if_neg hk]
    exact h

theorem emplace_new {m : ReplacementCacheKey → Option ReplacedTextureRef}
    {k : ReplacementCacheKey} {v : ReplacedTextureRef}
    (h : m k = none) : emplace m k v k = some v := by
  unfold emplace
  rw [if_pos rfl, h]
  rfl

theorem FindReplacement_disabled {s : TextureReplacerState} {ck h w ht : Nat}
    (hd : (s.enabled && s.replaceTextures) = false) :
    FindReplacement s ck h w ht =
      { texture := none, resolverCalled := false, state := s } := by
  unfold FindReplacement
  rw [hd]
  rfl

theorem FindReplacement_fastHit {s : TextureReplacerState} {ck h : Nat}
    {ref : ReplacedTextureRef} (w ht : Nat)
    (he : (s.enabled && s.replaceTextures) = true)
    (hc : s.cache ⟨ck, h⟩ = some ref) :
    FindReplacement s ck h w ht =
      { texture := ref.texture, resolverCalled := false, state := s } := by
  unfold FindReplacement
  rw [he, hc]
  rfl

theorem FindReplacement_missEq {s : TextureReplacerState} {ck h : Nat} (w ht : Nat)
    (he : (s.enabled && s.replaceTextures) = true)
    (hc : s.cache ⟨ck, h⟩ = none) :
    FindReplacement s ck h w ht = FindReplacementMiss s ck h := by
  unfold FindReplacement
  rw [he, hc]
  rfl

theorem FindReplacementMiss_ignored {s : TextureReplacerState} {ck h : Nat}
    (hr : (LookupHashFile s.aliases s.ignoreAddress
            (maskedCacheKey s.ignoreAddress ck) h).ignored = true) :
    FindReplacementMiss s ck h =
      { texture := none, resolverCalled := true,
        state := { s with cache := emplace s.cache ⟨ck, h⟩
                            { hashfiles := "", texture := none } } } := by
  simp only [FindReplacementMiss, hr, if_true]

theorem FindReplacementMiss_levelHit {s : TextureReplacerState} {ck h t : Nat}
    (hr : (LookupHashFile s.aliases s.ignoreAddress
            (maskedCacheKey s.ignoreAddress ck) h).ignored = false)
    (ha : alook s.levelCache
            (LookupHashFile s.aliases s.ignoreAddress
              (maskedCacheKey s.ignoreAddress ck) h).hashfiles = some t) :
    FindReplacementMiss s ck h =
      { texture := some t, resolverCalled := true,
        state := { s with cache := emplace s.cache ⟨ck, h⟩
                            { hashfiles := (LookupHashFile s.aliases s.ignoreAddress
                                             (maskedCacheKey s.ignoreAddress ck) h).hashfiles,
                              texture := some t } } } := by
  simp only [FindReplacementMiss, hr, ha, Bool.false_eq_true, if_false]

theorem FindReplacementMiss_create {s : TextureReplacerState} {ck h : Nat}
    (hr : (LookupHashFile s.aliases s.ignoreAddress
            (maskedCacheKey s.ignoreAddress ck) h).ignored = false)
    (ha : alook s.levelCache
            (LookupHashFile s.aliases s.ignoreAddress
              (maskedCacheKey s.ignoreAddress ck) h).hashfiles = none) :
    FindReplacementMiss s ck h =
      { texture := some s.nextId, resolverCalled := true,
        state := { s with
          cache := emplace s.cache ⟨ck, h⟩
                     { hashfiles := (LookupHashFile s.aliases s.ignoreAddress
                                      (maskedCacheKey s.ignoreAddress ck) h).hashfiles,
                       texture := some s.nextId },
          levelCache := ((LookupHashFile s.aliases s.ignoreAddress
                           (maskedCacheKey s.ignoreAddress ck) h).hashfiles, s.nextId)
                          :: s.levelCache,
          handleData := fun i => if i = s.nextId then [] else s.handleData i,
          nextId := s.nextId + 1 } } := by
  simp only [FindReplacementMiss, hr, ha, Bool.false_eq_true, if_false]

theorem FindReplacement_success {s : TextureReplacerState} {ck h w ht t : Nat}
    (hs : (FindReplacement s ck h w ht).texture = some t) :
    (s.enabled && s.replaceTextures) = true ∧
    ∃ hf, (FindReplacement s ck h w ht).state.cache ⟨ck, h⟩ =
      some { hashfiles := hf, texture := some t } := by
  by_cases he : (s.enabled && s.replaceTextures) = true
  · refine ⟨he, ?_⟩
    cases hc : s.cache ⟨ck, h⟩ with
    | some ref =>
      rw [FindReplacement_fastHit w ht he hc] at hs ⊢
      obtain ⟨hf2, tx⟩ := ref
      dsimp only at hs
      subst hs
      exact ⟨hf2, hc⟩
    | none =>
      rw [FindReplacement_missEq w ht he hc] at hs ⊢
      cases hr : (LookupHashFile s.aliases s.ignoreAddress
                   (maskedCacheKey s.ignoreAddress ck) h).ignored with
      | true =>
        rw [FindReplacementMiss_ignored hr] at hs
        simp at hs
      | false =>
        cases ha : alook s.levelCache
            (LookupHashFile s.aliases s.ignoreAddress
              (maskedCacheKey s.ignoreAddress ck) h).hashfiles with
        | some t2 =>
          rw [FindReplacementMiss_levelHit hr ha] at hs ⊢
          simp only [Option.some.injEq] at hs
          subst hs
          exact ⟨_, emplace_new hc⟩
        | none =>
          rw [FindReplacementMiss_create hr ha] at hs ⊢
          simp only [Option.some.injEq] at hs
          subst hs
          exact ⟨_, emplace_new hc⟩
  · rw [FindReplacement_disabled (by simpa using he)] at hs
    simp at hs

theorem FindReplacement_cache_mono {s : TextureReplacerState}
    {k : ReplacementCacheKey} {r : ReplacedTextureRef}
    (hc : s.cache k = some r) (a b w ht : Nat) :
    (FindReplacement s a b w ht).state.cache k = some r := by
  by_cases he : (s.enabled && s.replaceTextures) = true
  · cases hc2 : s.cache ⟨a, b⟩ with
    | some ref => rw [FindReplacement_fastHit w ht he hc2]; exact hc
    | none =>
      rw [FindReplacement_missEq w ht he hc2]
      cases hr : (LookupHashFile s.aliases s.ignoreAddress
                   (maskedCacheKey s.ignoreAddress a) b).ignored with
      | true => rw [FindReplacementMiss_ignored hr]; exact emplace_keep hc
      | false =>
        cases ha : alook s.levelCache
            (LookupHashFile s.aliases s.ignoreAddress
              (maskedCacheKey s.ignoreAddress a) b).hashfiles with
        | some t2 => rw [FindReplacementMiss_levelHit hr ha]; exact emplace_keep hc
        | none => rw [FindReplacementMiss_create hr ha]; exact emplace_keep hc
  · rw [FindReplacement_disabled (by simpa using he)]; exact hc

theorem FindReplacement_flags (s : TextureReplacerState) (a b w ht : Nat) :
    (FindReplacement s a b w ht).state.enabled = s.enabled ∧
    (FindReplacement s a b w ht).state.replaceTextures = s.replaceTextures := by
  by_cases he : (s.enabled && s.replaceTextures) = true
  · cases hc2 : s.cache ⟨a, b⟩ with
    | some ref => rw [FindReplacement_fastHit w ht he hc2]; exact ⟨rfl, rfl⟩
    | none =>
      rw [FindReplacement_missEq w ht he hc2]
      cases hr : (LookupHashFile s.aliases s.ignoreAddress
                   (maskedCacheKey s.ignoreAddress a) b).ignored with
      | true => rw [FindReplacementMiss_ignored hr]; exact ⟨rfl, rfl⟩
      | false =>
        cases ha : alook s.levelCache
            (LookupHashFile s.aliases s.ignoreAddress
              (maskedCacheKey s.ignoreAddress a) b).hashfiles with
        | some t2 => rw [FindReplacementMiss_levelHit hr ha]; exact ⟨rfl, rfl⟩
        | none => rw [FindReplacementMiss_create hr ha]; exact ⟨rfl, rfl⟩
  · rw [FindReplacement_disabled (by simpa using he)]; exact ⟨rfl, rfl⟩

theorem runFinds_cache_mono :
    ∀ (calls : List (Nat × Nat × Nat × Nat)) (s : TextureReplacerState)
      (k : ReplacementCacheKey) (r : ReplacedTextureRef),
      s.cache k = some r → (runFinds s calls).cache k = some r := by
  intro calls
  induction calls with
  | nil => intro s k r hc; exact hc
  | cons a rest ih =>
    intro s k r hc
    exact ih _ _ _ (FindReplacement_cache_mono hc a.1 a.2.1 a.2.2.1 a.2.2.2)

theorem runFinds_flags :
    ∀ (calls : List (Nat × Nat × Nat × Nat)) (s : TextureReplacerState),
      (runFinds s calls).enabled = s.enabled ∧
      (runFinds s calls).replaceTextures = s.replaceTextures := by
  intro calls
  induction calls with
  | nil => intro s; exact ⟨rfl, rfl⟩
  | cons a rest ih =>
    intro s
    have h1 := FindReplacement_flags s a.1 a.2.1 a.2.2.1 a.2.2.2
    have h2 := ih (FindReplacement s a.1 a.2.1 a.2.2.1 a.2.2.2).state
    exact ⟨h2.1.trans h1.1, h2.2.trans h1.2⟩

/-- C2: FindReplacement is idempotent — once a call has resolved
(cachekey, hash) to a handle, every later call with the same arguments,
after any interleaved FindReplacement traffic, returns the very same
handle identity from the fast tier (no resolver run), leaving the state
untouched and constructing nothing new. -/
theorem FindReplacement_idempotent (s : TextureReplacerState)
    (cachekey hash w h t : Nat) (calls : List (Nat × Nat × Nat × Nat))
    (hs : (FindReplacement s cachekey hash w h).texture = some t) :
    FindReplacement (runFinds (FindReplacement s cachekey hash w h).state calls)
        cachekey hash w h =
      { texture := some t, resolverCalled := false,
        state := runFinds (FindReplacement s cachekey hash w h).state calls } := by
  obtain ⟨he, hf, hcache⟩ := FindReplacement_success hs
  have h2 := runFinds_cache_mono calls _ _ _ hcache
  have hfl1 := FindReplacement_flags s cachekey hash w h
  have hfl2 := runFinds_flags calls (FindReplacement s cachekey hash w h).state
  have he2 : ((runFinds (FindReplacement s cachekey hash w h).state calls).enabled &&
      (runFinds (FindReplacement s cachekey hash w h).state calls).replaceTextures) = true := by
    rw [hfl2.1, hfl2.2, hfl1.1, hfl1.2]
    exact he
  rw [FindReplacement_fastHit w h he2 h2]

/-- A minimal enabled state with empty tables, used to instantiate the
cache theorems at concrete inputs. -/
def frState0 : TextureReplacerState where
  enabled := true
  replaceTextures := true
  saveNewTextures := false
  allowVideo := false
  ignoreAddress := false
  ignoreMipmap := false
  aliases := fun _ => none
  hashranges := fun _ => none
  cache := fun _ => none
  levelCache := []
  handleData := fun _ => []
  nextId := 0
  savedCache := fun _ => none
  lastTextureCacheSizeGB := 0

theorem FindReplacement_idempotent_witness :
    FindReplacement (runFinds (FindReplacement frState0 1 2 8 8).state []) 1 2 8 8 =
      { texture := some 0, resolverCalled := false,
        state := runFinds (FindReplacement frState0 1 2 8 8).state [] } :=
  FindReplacement_idempotent frState0 1 2 8 8 0 [] (by decide)

/-- C4: an AddressKey whose alias resolution yields the explicit empty
alias is memoized: the resolving call writes a negative fast-tier entry
(ReplacedTextureRef{} — empty string, null texture) and returns nothing,
and every later FindReplacement call on the same (cachekey, hash), after
any interleaved FindReplacement traffic, returns nothing from the fast
tier without running alias resolution again. -/
theorem FindReplacement_ignored_memoized (s : TextureReplacerState)
    (cachekey hash w h w2 h2 : Nat) (calls : List (Nat × Nat × Nat × Nat))
    (he : (s.enabled && s.replaceTextures) = true)
    (hmiss : s.cache ⟨cachekey, hash⟩ = none)
    (hign : (LookupHashFile s.aliases s.ignoreAddress
              (maskedCacheKey s.ignoreAddress cachekey) hash).ignored = true) :
    (FindReplacement s cachekey hash w h =
      { texture := none, resolverCalled := true,
        state := { s with cache := emplace s.cache ⟨cachekey, hash⟩
                            { hashfiles := "", texture := none } } }) ∧
    (FindReplacement
        (runFinds (FindReplacement s cachekey hash w h).state calls) cachekey hash w2 h2 =
      { texture := none, resolverCalled := false,
        state := runFinds (FindReplacement s cachekey hash w h).state calls }) := by
  have h1 : FindReplacement s cachekey hash w h =
      { texture := none, resolverCalled := true,
        state := { s with cache := emplace s.cache ⟨cachekey, hash⟩
                            { hashfiles := "", texture := none } } } := by
    rw [FindReplacement_missEq w h he hmiss, FindReplacementMiss_ignored hign]
  refine ⟨h1, ?_⟩
  have hneg : (FindReplacement s cachekey hash w h).state.cache ⟨cachekey, hash⟩ =
      some { hashfiles := "", texture := none } := by
    rw [h1]
    exact emplace_new hmiss
  have hc2 := runFinds_cache_mono calls _ _ _ hneg
  have hfl1 := FindReplacement_flags s cachekey hash w h
  have hfl2 := runFinds_flags calls (FindReplacement s cachekey hash w h).state
  have he2 : ((runFinds (FindReplacement s cachekey hash w h).state calls).enabled &&
      (runFinds (FindReplacement s cachekey hash w h).state calls).replaceTextures) = true := by
    rw [hfl2.1, hfl2.2, hfl1.1, hfl1.2]
    exact he
  rw [FindReplacement_fastHit w2 h2 he2 hc2]

/-- An enabled state whose alias table explicitly ignores the key
(cachekey 5, hash 7) via an empty alias. -/
def frStateIgn : TextureReplacerState :=
  { frState0 with aliases := fun k => if k = ⟨5, 7⟩ then some ("") else none }

theorem FindReplacement_ignored_memoized_witness :
    (FindReplacement (runFinds (FindReplacement frStateIgn 5 7 8 8).state []) 5 7 8 8).texture
      = none := by
  rw [(FindReplacement_ignored_memoized frStateIgn 5 7 8 8 8 8 []
        (by decide) (by decide) (by decide)).2]

/-- An enabled state whose alias table maps the key (cachekey 1,
hash 0xAAAA) to the file name that HashName generates for (cachekey 2,
hash 0xBBBB) — a legal alias value, since generated names are exactly the
form a texture dump produces. -/
def c1State : TextureReplacerState :=
  { frState0 with
    aliases := fun k =>
      if k = ⟨1, 0xAAAA⟩ then some ("00000000000000020000bbbb.png") else none }

/-- C1 (code bug, lines 523-546): two AddressKeys whose resolution yields
the same canonical identity string desc.hashfiles — here the alias of
(1, 0xAAAA) equals the generated name of (2, 0xBBBB), namely
"00000000000000020000bbbb.png" — nevertheless receive two distinct
ReplacedTexture handles (ids 0 and 1): the second call constructs a new
handle even though its canonical string is already present in the level
cache, because the source keys levelCache_ on the local hashfiles
variable (empty whenever no alias matched) instead of desc.hashfiles,
contradicting the source's own comment that the generated filename of the
top level is used as the key in the data cache. -/
theorem FindReplacement_canonical_identity_bug :
    (canonicalHashfiles c1State 1 0xAAAA = some ("00000000000000020000bbbb.png")) ∧
    (canonicalHashfiles (FindReplacement c1State 1 0xAAAA 16 16).state 2 0xBBBB
      = some ("00000000000000020000bbbb.png")) ∧
    ((FindReplacement c1State 1 0xAAAA 16 16).texture = some 0) ∧
    ((FindReplacement (FindReplacement c1State 1 0xAAAA 16 16).state 2 0xBBBB 16 16).texture
      = some 1) := by
  refine ⟨by decide, by decide, by decide, by decide⟩

/-- Decimation mode (the header's enum): NEW_FRAME is the normal periodic
sweep, FORCE_PRESSURE the under-memory-pressure sweep, ALL the full clear. -/
inductive ReplacerDecimateMode where
  | NEW_FRAME
  | FORCE_PRESSURE
  | ALL
deriving DecidableEq

/-- MAX_CACHE_SIZE (line 56): 4.0 GB. -/
def MAX_CACHE_SIZE : ℚ := 4

/-- The age threshold computed by Decimate (lines 738-749). -/
def DecimateAge (mode : ReplacerDecimateMode) (lastGB : ℚ) : ℚ :=
  if mode = ReplacerDecimateMode.FORCE_PRESSURE then 90
  else if mode = ReplacerDecimateMode.ALL then 0
  else if 1 < lastGB then
    90 + (1 - min MAX_CACHE_SIZE lastGB / MAX_CACHE_SIZE) * 1710
  else 1800

/-- One iteration of the Decimate sweep (lines 753-758): purge the handle's
stale payload under its lock and accumulate its remaining resident size. -/
def decimateStep (threshold : ℚ)
    (acc : (Nat → List ReplacementLevelData) × Nat) (item : String × Nat) :
    (Nat → List ReplacementLevelData) × Nat :=
  let purged := PurgeIfNotUsedSinceTime threshold (acc.1 item.2)
  (fun i => if i = item.2 then purged else acc.1 i,
   acc.2 + GetTotalDataSize purged)

/-- Decimate (lines 738-765): sweep every level-cache handle, purging
payload older than the age threshold, then store the summed resident size
(in GB) as the measurement driving the next sweep.  No table entry is
removed. -/
def Decimate (s : TextureReplacerState) (mode : ReplacerDecimateMode)
    (now : ℚ) : TextureReplacerState :=
  let threshold := now - DecimateAge mode s.lastTextureCacheSizeGB
  let res := s.levelCache.foldl (decimateStep threshold) (s.handleData, 0)
  { s with handleData := res.1,
           lastTextureCacheSizeGB := (res.2 : ℚ) / (1024 * 1024 * 1024) }

theorem purge_idem (th : ℚ) (d : List ReplacementLevelData) :
    PurgeIfNotUsedSinceTime th (PurgeIfNotUsedSinceTime th d) =
      PurgeIfNotUsedSinceTime th d := by
  simp [PurgeIfNotUsedSinceTime, List.filter_filter]

theorem decimateStep_foldl_sum (th : ℚ) (hd0 : Nat → List ReplacementLevelData) :
    ∀ (l : List (String × Nat)) (hd : Nat → List ReplacementLevelData) (acc : Nat),
      (∀ i, PurgeIfNotUsedSinceTime th (hd i) = PurgeIfNotUsedSinceTime th (hd0 i)) →
      (l.foldl (decimateStep th) (hd, acc)).2 =
        acc + (l.map (fun item =>
          GetTotalDataSize (PurgeIfNotUsedSinceTime th (hd0 item.2)))).sum := by
  intro l
  induction l with
  | nil => intro hd acc hinv; simp
  | cons a rest ih =>
    intro hd acc hinv
    rw [List.foldl_cons]
    have h1 : decimateStep th (hd, acc) a =
        (fun i => if i = a.2 then PurgeIfNotUsedSinceTime th (hd a.2) else hd i,
         acc + GetTotalDataSize (PurgeIfNotUsedSinceTime th (hd a.2))) := rfl
    rw [h1, ih _ _ ?inv]
    · rw [hinv a.2]
      simp [Nat.add_assoc]
    case inv =>
      intro i
      by_cases hi : i = a.2
      · subst hi
        show PurgeIfNotUsedSinceTime th
            (if a.2 = a.2 then PurgeIfNotUsedSinceTime th (hd a.2) else hd a.2) =
          PurgeIfNotUsedSinceTime th (hd0 a.2)
        rw [if_pos rfl, purge_idem, hinv]
      · show PurgeIfNotUsedSinceTime th
            (if i = a.2 then PurgeIfNotUsedSinceTime th (hd a.2) else hd i) =
          PurgeIfNotUsedSinceTime th (hd0 i)
        rw [if_neg hi]
        exact hinv i

theorem decimateStep_foldl_handle (th : ℚ) (hd0 : Nat → List ReplacementLevelData) :
    ∀ (l : List (String × Nat)) (hd : Nat → List ReplacementLevelData) (acc : Nat),
      (∀ i, hd i = hd0 i ∨ hd i = PurgeIfNotUsedSinceTime th (hd0 i)) →
      ∀ i, (l.foldl (decimateStep th) (hd, acc)).1 i = hd0 i ∨
           (l.foldl (decimateStep th) (hd, acc)).1 i =
             PurgeIfNotUsedSinceTime th (hd0 i) := by
  intro l
  induction l with
  | nil => intro hd acc hinv; exact hinv
  | cons a rest ih =>
    intro hd acc hinv
    rw [List.foldl_cons]
    have h1 : decimateStep th (hd, acc) a =
        (fun i => if i = a.2 then PurgeIfNotUsedSinceTime th (hd a.2) else hd i,
         acc + GetTotalDataSize (PurgeIfNotUsedSinceTime th (hd a.2))) := rfl
    rw [h1]
    refine ih _ _ ?_
    intro i
    by_cases hi : i = a.2
    · subst hi
      show (if a.2 = a.2 then PurgeIfNotUsedSinceTime th (hd a.2) else hd a.2) = hd0 a.2 ∨
        (if a.2 = a.2 then PurgeIfNotUsedSinceTime th (hd a.2) else hd a.2) =
          PurgeIfNotUsedSinceTime th (hd0 a.2)
      rw [if_pos rfl]
      cases hinv a.2 with
      | inl h2 => rw [h2]; exact Or.inr rfl
      | inr h2 => rw [h2, purge_idem]; exact Or.inr rfl
    · show (if i = a.2 then PurgeIfNotUsedSinceTime th (hd a.2) else hd i) = hd0 i ∨
        (if i = a.2 then PurgeIfNotUsedSinceTime th (hd a.2) else hd i) =
          PurgeIfNotUsedSinceTime th (hd0 i)
      rw [if_neg hi]
      exact hinv i

/-- C5: Decimate's age threshold is exactly 0 for ALL (forced), 90 s for
FORCE_PRESSURE (under pressure), and for the normal sweep 1800 s when the
last measured resident size is at most 1 GB, otherwise
90 + (1 − min(size, 4)/4) × 1710 s; and after the sweep the summed
resident size of the purged handles (in GB) is stored as the measurement
the next call will use. -/
theorem Decimate_age_policy :
    (∀ x : ℚ, DecimateAge ReplacerDecimateMode.ALL x = 0) ∧
    (∀ x : ℚ, DecimateAge ReplacerDecimateMode.FORCE_PRESSURE x = 90) ∧
    (∀ x : ℚ, x ≤ 1 → DecimateAge ReplacerDecimateMode.NEW_FRAME x = 1800) ∧
    (∀ x : ℚ, 1 < x → DecimateAge ReplacerDecimateMode.NEW_FRAME x =
        90 + (1 - min x 4 / 4) * 1710) ∧
    (∀ (s : TextureReplacerState) (mode : ReplacerDecimateMode) (now : ℚ),
      (Decimate s mode now).lastTextureCacheSizeGB =
        ((s.levelCache.map (fun item => GetTotalDataSize
            (PurgeIfNotUsedSinceTime (now - DecimateAge mode s.lastTextureCacheSizeGB)
              (s.handleData item.2)))).sum : ℚ) / (1024 * 1024 * 1024)) := by
  refine ⟨fun x => rfl, fun x => rfl, ?_, ?_, ?_⟩
  · intro x hx
    have h1 : ¬ (1 < x) := not_lt.mpr hx
    simp [DecimateAge, h1]
  · intro x hx
    simp only [DecimateAge, reduceCtorEq, if_false, if_pos hx, MAX_CACHE_SIZE]
    rw [min_comm 4 x]
  · intro s mode now
    have hsum := decimateStep_foldl_sum (now - DecimateAge mode s.lastTextureCacheSizeGB)
        s.handleData s.levelCache s.handleData 0 (fun i => rfl)
    simp only [Decimate]
    rw [hsum, Nat.zero_add]

theorem Decimate_age_policy_witness :
    ((1 : ℚ) / 2 ≤ 1 ∧ DecimateAge ReplacerDecimateMode.NEW_FRAME (1 / 2) = 1800) ∧
    ((1 : ℚ) < 2 ∧ DecimateAge ReplacerDecimateMode.NEW_FRAME 2 =
        90 + (1 - min (2 : ℚ) 4 / 4) * 1710) :=
  ⟨⟨by norm_num, Decimate_age_policy.2.2.1 (1 / 2) (by norm_num)⟩,
   ⟨by norm_num, Decimate_age_policy.2.2.2.1 2 (by norm_num)⟩⟩

/-- C9: Decimate, in every mode, removes no entry from either lookup tier:
the fast tier and the level cache (keys and handle identities alike) are
exactly what they were, no handle is created or destroyed, and each
handle's stored payload is at most purged by the sweep's threshold. -/
theorem Decimate_preserves_tables (s : TextureReplacerState)
    (mode : ReplacerDecimateMode) (now : ℚ) :
    (Decimate s mode now).cache = s.cache ∧
    (Decimate s mode now).levelCache = s.levelCache ∧
    (Decimate s mode now).nextId = s.nextId ∧
    ∀ i, (Decimate s mode now).handleData i = s.handleData i ∨
         (Decimate s mode now).handleData i =
           PurgeIfNotUsedSinceTime (now - DecimateAge mode s.lastTextureCacheSizeGB)
             (s.handleData i) := by
  refine ⟨rfl, rfl, rfl, ?_⟩
  exact decimateStep_foldl_handle (now - DecimateAge mode s.lastTextureCacheSizeGB)
    s.handleData s.levelCache s.handleData 0 (fun i => Or.inl rfl)

/-- Modelled from the spec: the upper bound of the kernel memory region
used by the PPGe-texture address exclusion in WillSave; the function
PSP_GetKernelMemoryEnd lives outside this source file. -/
def PSP_KernelMemoryEnd : Nat := 0x08400000

/-- The fields of ReplacedTextureDecodeInfo consulted by WillSave and
NotifyTextureDecoded. -/
structure ReplacedTextureDecodeInfo where
  cachekey : Nat
  hash : Nat
  addr : Nat
  isVideo : Bool

/-- WillSave (lines 628-639): saving must be enabled, the address must not
fall in the PPGe/kernel window, and video frames need the allowVideo
option. -/
def WillSave (s : TextureReplacerState) (info : ReplacedTextureDecodeInfo) : Bool :=
  if !s.saveNewTextures then false
  else if 0x05000000 < info.addr ∧ info.addr < PSP_KernelMemoryEnd then false
  else if info.isVideo ∧ ¬s.allowVideo then false
  else true

/-- The externally visible actions of one NotifyTextureDecoded call, in
program order: handing a SaveTextureTask to the thread manager, and
writing the savedCache_ de-duplication record. -/
inductive SaveEvent where
  | enqueueTask (saveFilename : String)
  | writeRecord (key : ReplacementCacheKey) (level : Nat)
deriving DecidableEq

def isEnqueueTask : SaveEvent → Bool
  | SaveEvent.enqueueTask _ => true
  | SaveEvent.writeRecord _ _ => false

/-- Whether some de-duplication record write occurs strictly before some
task enqueue in an event trace. -/
def recordPrecedesEnqueue : List SaveEvent → Bool
  | [] => false
  | SaveEvent.writeRecord _ _ :: rest => rest.any isEnqueueTask || recordPrecedesEnqueue rest
  | SaveEvent.enqueueTask _ :: rest => recordPrecedesEnqueue rest

/-- NotifyTextureDecoded (lines 641-736): skip when saving is off, the
texture is excluded, mipmaps are ignored, an alias already covers the
key, or the (cachekey, hash) record exists in savedCache_; otherwise copy
the (hash-range-clipped) rectangle, enqueue the background save task, and
then record the save synchronously.  The returned event list is the
program-order trace of the enqueue and the record write; the pixel buffer
itself has no further observable effect here. -/
def NotifyTextureDecoded (s : TextureReplacerState) (info : ReplacedTextureDecodeInfo)
    (level origW origH scaledW scaledH : Nat) (now : ℚ) :
    List SaveEvent × TextureReplacerState :=
  if !WillSave s info then ([], s)
  else if s.ignoreMipmap ∧ 0 < level then ([], s)
  else
    let cachekey := maskedCacheKey s.ignoreAddress info.cachekey
    let r := LookupHashFile s.aliases s.ignoreAddress cachekey info.hash
    if r.foundAlias || r.ignored then ([], s)
    else
      let hashfile := HashName cachekey info.hash level ++ ".png"
      let key : ReplacementCacheKey := ⟨cachekey, info.hash⟩
      match s.savedCache key with
      | some _ => ([], s)
      | none =>
        let wh : Nat × Nat :=
          match LookupHashRange s.hashranges info.addr origW origH with
          | some lookup => (lookup.1 * (scaledW / origW), lookup.2 * (scaledH / origH))
          | none => (scaledW, scaledH)
        ([SaveEvent.enqueueTask hashfile, SaveEvent.writeRecord key level],
         { s with savedCache := fun k =>
             if k = key then
               some { levelW := fun l => if l = level then wh.1 else 0,
                      levelH := fun l => if l = level then wh.2 else 0,
                      levelSaved := fun l => l = level,
                      lastTimeSaved := now }
             else s.savedCache k })

theorem NotifyTextureDecoded_shape (s : TextureReplacerState)
    (info : ReplacedTextureDecodeInfo) (level oW oH sW sH : Nat) (now : ℚ) :
    (NotifyTextureDecoded s info level oW oH sW sH now = ([], s)) ∨
    (s.savedCache ⟨maskedCacheKey s.ignoreAddress info.cachekey, info.hash⟩ = none ∧
     ∃ sd, NotifyTextureDecoded s info level oW oH sW sH now =
       ([SaveEvent.enqueueTask
           (HashName (maskedCacheKey s.ignoreAddress info.cachekey) info.hash level ++ ".png"),
         SaveEvent.writeRecord
           ⟨maskedCacheKey s.ignoreAddress info.cachekey, info.hash⟩ level],
        { s with savedCache := fun k =>
            if k = ⟨maskedCacheKey s.ignoreAddress info.cachekey, info.hash⟩
            then some sd else s.savedCache k })) := by
  simp only [NotifyTextureDecoded]
  cases hws : WillSave s info with
  | false => left; rfl
  | true =>
    simp only [Bool.not_true, Bool.false_eq_true, if_false]
    by_cases hm : s.ignoreMipmap ∧ 0 < level
    · left; rw [if_pos hm]
    · rw [if_neg hm]
      cases hr : ((LookupHashFile s.aliases s.ignoreAddress
            (maskedCacheKey s.ignoreAddress info.cachekey) info.hash).foundAlias
          || (LookupHashFile s.aliases s.ignoreAddress
            (maskedCacheKey s.ignoreAddress info.cachekey) info.hash).ignored) with
      | true => left; rfl
      | false =>
        cases hsc : s.savedCache ⟨maskedCacheKey s.ignoreAddress info.cachekey, info.hash⟩ with
        | some sd0 => left; rfl
        | none => exact Or.inr ⟨rfl, _, rfl⟩

theorem NotifyTextureDecoded_skip (s1 : TextureReplacerState)
    (info : ReplacedTextureDecodeInfo) (level oW oH sW sH : Nat) (now2 : ℚ)
    (hsc : s1.savedCache ⟨maskedCacheKey s1.ignoreAddress info.cachekey, info.hash⟩ ≠ none) :
    NotifyTextureDecoded s1 info level oW oH sW sH now2 = ([], s1) := by
  simp only [NotifyTextureDecoded]
  cases hws : WillSave s1 info with
  | false => rfl
  | true =>
    simp only [Bool.not_true, Bool.false_eq_true, if_false]
    by_cases hm : s1.ignoreMipmap ∧ 0 < level
    · rw [if_pos hm]
    · rw [if_neg hm]
      cases hr : ((LookupHashFile s1.aliases s1.ignoreAddress
            (maskedCacheKey s1.ignoreAddress info.cachekey) info.hash).foundAlias
          || (LookupHashFile s1.aliases s1.ignoreAddress
            (maskedCacheKey s1.ignoreAddress info.cachekey) info.hash).ignored) with
      | true => rfl
      | false =>
        cases hs2 : s1.savedCache ⟨maskedCacheKey s1.ignoreAddress info.cachekey, info.hash⟩ with
        | some sd0 => rfl
        | none => exact absurd hs2 hsc

/-- C6: with persistence enabled, two NotifyTextureDecoded calls with the
same (cachekey, hash, level) queue exactly one background save task: once
the first call queues, the second call returns without queueing anything
(and without touching the state), because the (cachekey, hash) record it
finds in savedCache_ short-circuits it. -/
theorem NotifyTextureDecoded_dedup (s : TextureReplacerState)
    (info : ReplacedTextureDecodeInfo) (level oW oH sW sH : Nat) (now now2 : ℚ)
    (hq : (NotifyTextureDecoded s info level oW oH sW sH now).1 ≠ []) :
    ((NotifyTextureDecoded s info level oW oH sW sH now).1.countP isEnqueueTask = 1) ∧
    (NotifyTextureDecoded (NotifyTextureDecoded s info level oW oH sW sH now).2
        info level oW oH sW sH now2 =
      ([], (NotifyTextureDecoded s info level oW oH sW sH now).2)) := by
  rcases NotifyTextureDecoded_shape s info level oW oH sW sH now with h | ⟨hsc, sd, hcall⟩
  · rw [h] at hq
    exact absurd rfl hq
  · rw [hcall]
    refine ⟨rfl, ?_⟩
    apply NotifyTextureDecoded_skip
    show (if (⟨maskedCacheKey s.ignoreAddress info.cachekey, info.hash⟩ : ReplacementCacheKey)
          = ⟨maskedCacheKey s.ignoreAddress info.cachekey, info.hash⟩
        then some sd else s.savedCache ⟨maskedCacheKey s.ignoreAddress info.cachekey, info.hash⟩)
        ≠ none
    rw [if_pos rfl]
    exact fun hcon => Option.noConfusion hcon

/-- C10: the save de-duplication record is keyed on (cachekey, hash) only —
after a save has been recorded for some level, a later call with the same
(cachekey, hash) and any level (and any dimensions) queues no task at all
and leaves the state unchanged. -/
theorem NotifyTextureDecoded_level_blind (s : TextureReplacerState)
    (info : ReplacedTextureDecodeInfo)
    (level level2 oW oH sW sH oW2 oH2 sW2 sH2 : Nat) (now now2 : ℚ)
    (hq : (NotifyTextureDecoded s info level oW oH sW sH now).1 ≠ []) :
    NotifyTextureDecoded (NotifyTextureDecoded s info level oW oH sW sH now).2
        info level2 oW2 oH2 sW2 sH2 now2 =
      ([], (NotifyTextureDecoded s info level oW oH sW sH now).2) := by
  rcases NotifyTextureDecoded_shape s info level oW oH sW sH now with h | ⟨hsc, sd, hcall⟩
  · rw [h] at hq
    exact absurd rfl hq
  · rw [hcall]
    apply NotifyTextureDecoded_skip
    show (if (⟨maskedCacheKey s.ignoreAddress info.cachekey, info.hash⟩ : ReplacementCacheKey)
          = ⟨maskedCacheKey s.ignoreAddress info.cachekey, info.hash⟩
        then some sd else s.savedCache ⟨maskedCacheKey s.ignoreAddress info.cachekey, info.hash⟩)
        ≠ none
    rw [if_pos rfl]
    exact fun hcon => Option.noConfusion hcon

/-- C7 (amended): whenever NotifyTextureDecoded queues a save task, its
program-order trace is exactly [enqueue task, write record] — the
de-duplication record is written synchronously within the same call but
after the task is handed to the thread manager, not before — and the
record is present in savedCache_ when the call returns. -/
theorem NotifyTextureDecoded_record_follows_enqueue (s : TextureReplacerState)
    (info : ReplacedTextureDecodeInfo) (level oW oH sW sH : Nat) (now : ℚ)
    (hq : (NotifyTextureDecoded s info level oW oH sW sH now).1 ≠ []) :
    ((NotifyTextureDecoded s info level oW oH sW sH now).1 =
      [SaveEvent.enqueueTask
         (HashName (maskedCacheKey s.ignoreAddress info.cachekey) info.hash level ++ ".png"),
       SaveEvent.writeRecord
         ⟨maskedCacheKey s.ignoreAddress info.cachekey, info.hash⟩ level]) ∧
    (recordPrecedesEnqueue (NotifyTextureDecoded s info level oW oH sW sH now).1 = false) ∧
    ((NotifyTextureDecoded s info level oW oH sW sH now).2.savedCache
        ⟨maskedCacheKey s.ignoreAddress info.cachekey, info.hash⟩ ≠ none) := by
  rcases NotifyTextureDecoded_shape s info level oW oH sW sH now with h | ⟨hsc, sd, hcall⟩
  · rw [h] at hq
    exact absurd rfl hq
  · rw [hcall]
    refine ⟨rfl, rfl, ?_⟩
    show (if (⟨maskedCacheKey s.ignoreAddress info.cachekey, info.hash⟩ : ReplacementCacheKey)
          = ⟨maskedCacheKey s.ignoreAddress info.cachekey, info.hash⟩
        then some sd else s.savedCache ⟨maskedCacheKey s.ignoreAddress info.cachekey, info.hash⟩)
        ≠ none
    rw [if_pos rfl]
    exact fun hcon => Option.noConfusion hcon

/-- A state with saving enabled and empty tables, plus a decode notification
for a plain (non-video, low-address) texture at (cachekey 1, hash 2). -/
def saveState0 : TextureReplacerState :=
  { frState0 with saveNewTextures := true }

def saveInfo0 : ReplacedTextureDecodeInfo :=
  { cachekey := 1, hash := 2, addr := 0, isVideo := false }

/-- C7 counterexample: at a concrete fresh state and input, the call queues
exactly one task but no de-duplication record write precedes it — the
record write happens after the enqueue, so the claim that the record is
written before the task is queued fails here. -/
theorem NotifyTextureDecoded_enqueue_precedes_record :
    ((NotifyTextureDecoded saveState0 saveInfo0 0 16 16 16 16 0).1.countP isEnqueueTask = 1) ∧
    (recordPrecedesEnqueue (NotifyTextureDecoded saveState0 saveInfo0 0 16 16 16 16 0).1
      = false) := by
  refine ⟨by decide, by decide⟩

theorem NotifyTextureDecoded_dedup_witness :
    NotifyTextureDecoded (NotifyTextureDecoded saveState0 saveInfo0 0 16 16 16 16 0).2
        saveInfo0 0 16 16 16 16 1 =
      ([], (NotifyTextureDecoded saveState0 saveInfo0 0 16 16 16 16 0).2) :=
  (NotifyTextureDecoded_dedup saveState0 saveInfo0 0 16 16 16 16 0 1 (by decide)).2

theorem NotifyTextureDecoded_level_blind_witness :
    NotifyTextureDecoded (NotifyTextureDecoded saveState0 saveInfo0 0 16 16 16 16 0).2
        saveInfo0 3 16 16 16 16 1 =
      ([], (NotifyTextureDecoded saveState0 saveInfo0 0 16 16 16 16 0).2) :=
  NotifyTextureDecoded_level_blind saveState0 saveInfo0 0 3 16 16 16 16 16 16 16 16 0 1
    (by decide)

theorem NotifyTextureDecoded_record_follows_enqueue_witness :
    recordPrecedesEnqueue (NotifyTextureDecoded saveState0 saveInfo0 0 16 16 16 16 0).1
      = false :=
  (NotifyTextureDecoded_record_follows_enqueue saveState0 saveInfo0 0 16 16 16 16 0
    (by decide)).2.1

/-- The row-hash fold of ComputeHash's strided path (lines 432-460):
result = (result * 11) ^ rowHash over the rows in order, in 32-bit
arithmetic.  The per-row hashes are u32 values (XXH64 results are
truncated on assignment), hence the explicit truncations. -/
def FoldRowHashes (rowHashes : List Nat) : Nat :=
  rowHashes.foldl (fun result rowHash => ((result * 11) % 2 ^ 32) ^^^ (rowHash % 2 ^ 32)) 0

/-- The strided (gapped-rows) hash path, parametric in the per-row hash
function: StableQuickTexHash / XXH32 / XXH64 are external collaborators
(ext/xxhash, TextureDecoder), so the fold is stated for any row hash. -/
def StridedHash (rowHash : List Nat → Nat) (rows : List (List Nat)) : Nat :=
  FoldRowHashes (rows.map rowHash)

/-- Swap the byte content of two rows of a region, everything else equal. -/
def swapRows (i j : Nat) (rows : List (List Nat)) : List (List Nat) :=
  (rows.set i (rows.getD j [])).set j (rows.getD i [])

/-- A concrete stand-in row hash used to evaluate the fold at concrete
regions (any function works for the statements below; the source's actual
row hashes live outside this file). -/
def rowHashModel (bytes : List Nat) : Nat :=
  bytes.foldl (fun acc b => (acc * 31 + b) % 2 ^ 32) 0

/-- The contribution of one row hash to a two-row fold comparison:
(11·x mod 2^32) xor x. -/
def rowMix (x : Nat) : Nat :=
  ((x * 11) % 2 ^ 32) ^^^ x

/-- C8 counterexample: swapping the byte content of two rows does not
always change the strided hash — for a region whose two rows hold the same
bytes, the swapped region is the same region, so the hash is unchanged. -/
theorem StridedHash_swap_unchanged :
    (swapRows 0 1 [[7], [7]] = [[7], [7]]) ∧
    (StridedHash rowHashModel (swapRows 0 1 [[7], [7]]) =
      StridedHash rowHashModel [[7], [7]]) := by
  refine ⟨by decide, by decide⟩

theorem xorSwapAux (A B a b : ℕ) (h : B ^^^ a = A ^^^ b) : A ^^^ a = B ^^^ b := by
  have h1 : B ^^^ (B ^^^ a) = B ^^^ (A ^^^ b) := by rw [h]
  rw [Nat.xor_cancel_left] at h1
  rw [h1, ← Nat.xor_assoc, ← Nat.xor_assoc, Nat.xor_comm A B, Nat.xor_cancel_right]

/-- C8 (amended): the fold result = (result * 11) xor rowHash is applied in
row order and is order-sensitive as a non-commutative fold, but swapping
two rows changes the hash exactly when the two row hashes h1, h2 satisfy
(11·h1 mod 2^32) xor h1 ≠ (11·h2 mod 2^32) xor h2 (stated for a two-row
strided region and any per-row hash function): in particular rows with
equal content or colliding row hashes never change it, while e.g. row
hashes 1 and 2 always do. -/
theorem StridedHash_swap_iff (f : List Nat → Nat) (r1 r2 : List Nat) :
    StridedHash f [r2, r1] = StridedHash f [r1, r2] ↔
      rowMix (f r1 % 2 ^ 32) = rowMix (f r2 % 2 ^ 32) := by
  have e1 : StridedHash f [r1, r2] =
      ((f r1 % 2 ^ 32 * 11) % 2 ^ 32) ^^^ (f r2 % 2 ^ 32) := by
    simp [StridedHash, FoldRowHashes]
  have e2 : StridedHash f [r2, r1] =
      ((f r2 % 2 ^ 32 * 11) % 2 ^ 32) ^^^ (f r1 % 2 ^ 32) := by
    simp [StridedHash, FoldRowHashes]
  rw [e1, e2]
  unfold rowMix
  constructor
  · intro h
    exact xorSwapAux _ _ _ _ h
  · intro h
    exact xorSwapAux _ _ _ _ h
